import Mathlib

/-!
Shallow embedding of `src/helpers/powersave.py`, a daylight-driven scheduler.

Modelling conventions:
- A local (timezone-aware, system-local) datetime is modelled as an `Int`
  counting whole seconds on the local wall clock; the calendar day of an
  instant `t` is `t / 86400` (Euclidean division) and its time of day is
  `t % 86400`.  This abstracts real calendars and daylight-saving shifts
  into a uniform 86400-second day, which is faithful to the arithmetic the
  source performs (`datetime.combine`, `replace(year, month, day)`,
  `timedelta(days=1)`).
- `datetime.fromtimestamp(e).astimezone()` is modelled by adding a fixed
  timezone offset `off` to the epoch value `e`.
- Wall-clock time advances only at the blocking points of the program
  (`sleep_until`), and `sleep_until t` wakes exactly at `t`; each guard in
  the loop body samples the current time as advanced by the sleeps before it.
- The provider response consumed by `TimeInfo.get_from_web` is reduced to
  the two epoch-second values the code extracts (`results["sunrise"]`,
  `results["sunset"]`); a failing fetch attempt (non-200 status, malformed
  JSON, missing field) is an `Except.error`.
- Side effects (systemctl commands, sleeps, error logging) are recorded as
  an explicit event trace.
-/

namespace Powersave

/-- Calendar day of a local instant, in days since the model epoch. -/
def localDate (t : Int) : Int := t / 86400

/-- Time of day of a local instant, in seconds since local midnight. -/
def timeOfDay (t : Int) : Int := t % 86400

/-- Model of `datetime.datetime.combine(date, time(hour=h)).astimezone()`:
the instant at hour `h` of day `day`. -/
def combine (day hour : Int) : Int := day * 86400 + hour * 3600

/-- Model of `datetime.datetime.fromtimestamp(e).astimezone()`: the local
instant for epoch-seconds `e` under the fixed local-timezone offset `off`. -/
def localOfEpoch (off e : Int) : Int := e + off

/-- Model of `dt.replace(year=today.year, month=today.month, day=today.day)`:
keep the time of day of `t`, substitute calendar day `day`. -/
def replaceDate (day t : Int) : Int := day * 86400 + t % 86400

/-- The `TimeInfo` dataclass of the source: the three instants of one day's
window (`sunrise`, `sunset`, `next_1am`). -/
structure TimeInfo where
  sunrise : Int
  sunset : Int
  next_1am : Int
deriving DecidableEq, Repr

/-- Model of `TimeInfo.get_from_web` after a successful HTTP fetch: `today`
is the local calendar day at the time of the call, `off` the local timezone
offset, and `sunriseEpoch`/`sunsetEpoch` the epoch-second values found in the
response body.  The source converts each epoch to a local datetime, then
replaces its date with today; `next_1am` is built from `today` alone. -/
def TimeInfo.get_from_web (today off sunriseEpoch sunsetEpoch : Int) : TimeInfo :=
  { sunrise := replaceDate today (localOfEpoch off sunriseEpoch)
    sunset := replaceDate today (localOfEpoch off sunsetEpoch)
    next_1am := combine today 1 + 86400 }

/-- Model of `TimeInfo.default`: 06:00 today, 21:00 today, 01:00 tomorrow. -/
def TimeInfo.default (today : Int) : TimeInfo :=
  { sunrise := combine today 6
    sunset := combine today 21
    next_1am := combine today 1 + 86400 }

/-- Whether an attempt of the fetched operation failed (raised an exception). -/
def failed {ε α : Type} : Except ε α → Bool
  | Except.error _ => true
  | Except.ok _ => false

/-- Recursion underlying `retry`: `i` is the index of the next attempt, the
fuel counts the remaining attempts.  Returns the result together with the
number of calls made to `f` and the number of `time.sleep(delay_s)` calls
performed.  Mirrors the source loop: a successful call returns immediately;
a failed call logs, sleeps, and continues; exhausted attempts yield `none`. -/
def retryGo {ε α : Type} (f : Nat → Except ε α) : Nat → Nat → Option α × Nat × Nat
  | _, 0 => (none, 0, 0)
  | i, n + 1 =>
    match f i with
    | Except.ok v => (some v, 1, 0)
    | Except.error _ =>
      let r := retryGo f (i + 1) n
      (r.1, r.2.1 + 1, r.2.2 + 1)

/-- Model of `retry(times, delay_s, f)`.  The `delay_s` argument only feeds
`time.sleep`, so it does not influence the returned value or the counters. -/
def retry {ε α : Type} (times : Nat) (delay_s : Int) (f : Nat → Except ε α) :
    Option α × Nat × Nat :=
  let _ := delay_s
  retryGo f 0 times

/-- Observable side effects of one iteration of the scheduler loop. -/
inductive Event where
  | command (start : Bool)
  | sleepUntil (t : Int)
  | logOrderingError
deriving DecidableEq, Repr

/-- One guarded step of the loop body (lines 149-151, 152-154, 156-159 of the
source): if the current time `now` is before the instant `t`, issue
`set_service_state(start)` and then `sleep_until(t)`, waking at `t`;
otherwise do nothing.  Returns the events and the time afterwards. -/
def step (now : Int) (start : Bool) (t : Int) : List Event × Int :=
  if now < t then ([Event.command start, Event.sleepUntil t], t) else ([], now)

/-- The three guarded steps of the loop body, in source order: stop before
sunrise, start before sunset, stop before the next 01:00 boundary. -/
def runSteps (now : Int) (w : TimeInfo) : List Event × Int :=
  let s1 := step now false w.sunrise
  let s2 := step s1.2 true w.sunset
  let s3 := step s2.2 false w.next_1am
  (s1.1 ++ s2.1 ++ s3.1, s3.2)

/-- The loop body from the point where the window `w` is in hand: the
ordering-invariant check (which only emits a log event on violation) followed
by the three guarded steps. -/
def windowIteration (now : Int) (w : TimeInfo) : List Event × Int :=
  let logEvents :=
    if w.sunrise < w.sunset ∧ w.sunset < w.next_1am then [] else [Event.logOrderingError]
  let r := runSteps now w
  (logEvents ++ r.1, r.2)

/-- Result of one full iteration of the `main` loop. -/
structure IterResult where
  window : TimeInfo
  usedDefault : Bool
  events : List Event
  endTime : Int
deriving DecidableEq, Repr

/-- One full iteration of the `main` loop: fetch the window through
`retry(5, 120, ...)` with `attempts i` the outcome of the i-th fetch attempt,
fall back to `TimeInfo.default` when retry yields no result, then run the
checked steps. -/
def mainIteration {ε : Type} (now today : Int) (attempts : Nat → Except ε TimeInfo) :
    IterResult :=
  let fetched := (retry 5 120 attempts).1
  let w :=
    match fetched with
    | some info => info
    | none => TimeInfo.default today
  let r := windowIteration now w
  { window := w, usedDefault := fetched.isNone, events := r.1, endTime := r.2 }

/-- The service-state commands of a trace, in order (`false` = stop,
`true` = start). -/
def commands (evs : List Event) : List Bool :=
  evs.filterMap fun e =>
    match e with
    | Event.command s => some s
    | _ => none

/-- The sleep targets of a trace, in order. -/
def sleepTargets (evs : List Event) : List Int :=
  evs.filterMap fun e =>
    match e with
    | Event.sleepUntil t => some t
    | _ => none

/-! ## Helper lemmas -/

/-- Characterisation of a single guarded step: the events are emitted exactly
when `now < t`, and the time afterwards is `max now t` in every case. -/
theorem step_spec (now : Int) (b : Bool) (t : Int) :
    step now b t =
      ((if now < t then [Event.command b, Event.sleepUntil t] else []), max now t) := by
  unfold step
  split
  · have h : max now t = t := by omega
    rw [h]
  · have h : max now t = now := by omega
    rw [h]

/-- When every attempt in the window fails, `retryGo` exhausts its fuel,
making one call and one sleep per attempt. -/
theorem retryGo_all_fail {ε α : Type} (f : Nat → Except ε α) (n : Nat) :
    ∀ i : Nat, (∀ j : Nat, j < n → failed (f (i + j)) = true) →
      retryGo f i n = (none, n, n) := by
  induction n with
  | zero => intro i _; rfl
  | succ m ih =>
    intro i h
    have h0 : failed (f i) = true := by
      have := h 0 (Nat.succ_pos m)
      simpa using this
    cases hfi : f i with
    | ok v => rw [hfi] at h0; simp [failed] at h0
    | error e =>
      have hrec : retryGo f (i + 1) m = (none, m, m) := by
        apply ih
        intro j hj
        have := h (j + 1) (by omega)
        have harg : i + (j + 1) = i + 1 + j := by omega
        rwa [harg] at this
      simp [retryGo, hfi, hrec]

/-- When the first `k` attempts fail and attempt `k` succeeds with `v` (and
`k` is within the fuel), `retryGo` returns `v` after exactly `k + 1` calls
and `k` sleeps. -/
theorem retryGo_first_success {ε α : Type} (f : Nat → Except ε α) (v : α) :
    ∀ k n i : Nat, k < n → (∀ j : Nat, j < k → failed (f (i + j)) = true) →
      f (i + k) = Except.ok v →
      retryGo f i n = (some v, k + 1, k) := by
  intro k
  induction k with
  | zero =>
    intro n i hn _ hok
    obtain ⟨m, rfl⟩ : ∃ m, n = m + 1 := ⟨n - 1, by omega⟩
    have : f i = Except.ok v := by simpa using hok
    simp [retryGo, this]
  | succ k ih =>
    intro n i hn hfail hok
    obtain ⟨m, rfl⟩ : ∃ m, n = m + 1 := ⟨n - 1, by omega⟩
    have h0 : failed (f i) = true := by
      have := hfail 0 (Nat.succ_pos k)
      simpa using this
    cases hfi : f i with
    | ok u => rw [hfi] at h0; simp [failed] at h0
    | error e =>
      have hrec : retryGo f (i + 1) m = (some v, k + 1, k) := by
        apply ih m (i + 1) (by omega)
        · intro j hj
          have := hfail (j + 1) (by omega)
          have harg : i + (j + 1) = i + 1 + j := by omega
          rwa [harg] at this
        · have harg : i + (k + 1) = i + 1 + k := by omega
          rwa [harg] at hok
      simp [retryGo, hfi, hrec]

/-- `retryGo` never makes more calls than it has fuel. -/
theorem retryGo_calls_le {ε α : Type} (f : Nat → Except ε α) (n : Nat) :
    ∀ i : Nat, (retryGo f i n).2.1 ≤ n := by
  induction n with
  | zero => intro i; simp [retryGo]
  | succ m ih =>
    intro i
    cases hfi : f i with
    | ok v => simp [retryGo, hfi]
    | error e =>
      have := ih (i + 1)
      simp only [retryGo, hfi]
      omega

/-! ## Claim theorems -/

/-- C1: In every iteration, the three instants are handled in the order
sunrise, sunset, next_1am; a step whose instant the current time has already
reached emits nothing (no command, no sleep), and otherwise the paired
command (stop before sunrise, start before sunset, stop before next_1am) is
issued before the sleep, and the loop then blocks until the instant arrives
(the time after each step is the maximum of the time before it and the
instant). -/
theorem scheduler_steps_in_order (now : Int) (w : TimeInfo) :
    (runSteps now w).1 =
        (if now < w.sunrise then [Event.command false, Event.sleepUntil w.sunrise] else [])
      ++ (if max now w.sunrise < w.sunset then
            [Event.command true, Event.sleepUntil w.sunset] else [])
      ++ (if max (max now w.sunrise) w.sunset < w.next_1am then
            [Event.command false, Event.sleepUntil w.next_1am] else [])
    ∧ (runSteps now w).2 = max (max (max now w.sunrise) w.sunset) w.next_1am := by
  constructor <;> simp only [runSteps, step_spec]

/-- C2: `retry` calls the operation at most `times` times, sequentially by
attempt index; when the first `i` attempts fail and attempt `i` succeeds
with `v`, it returns `some v` having made exactly `i + 1` calls; when all
`times` attempts fail it returns `none`.  No exception escapes: `retry` is a
total function into `Option`. -/
theorem retry_contract {ε α : Type} (times : Nat) (delay_s : Int) (f : Nat → Except ε α) :
    (retry times delay_s f).2.1 ≤ times ∧
    (∀ i : Nat, ∀ v : α, i < times → (∀ j : Nat, j < i → failed (f j) = true) →
      f i = Except.ok v → retry times delay_s f = (some v, i + 1, i)) ∧
    ((∀ i : Nat, i < times → failed (f i) = true) → (retry times delay_s f).1 = none) := by
  refine ⟨retryGo_calls_le f times 0, ?_, ?_⟩
  · intro i v hi hfail hok
    have h := retryGo_first_success f v i times 0 hi
      (fun j hj => by simpa using hfail j hj) (by simpa using hok)
    simpa [retry] using h
  · intro h
    have hall := retryGo_all_fail f times 0 (fun j hj => by simpa using h j hj)
    simp [retry, hall]

/-- A fetch operation that fails on the first attempt and succeeds on the
second, used to instantiate the retry contract. -/
def fetchSecondTry : Nat → Except Unit Nat :=
  fun i => if i = 0 then Except.error () else Except.ok 42

theorem retry_contract_witness : retry 3 120 fetchSecondTry = (some 42, 2, 1) :=
  (retry_contract 3 120 fetchSecondTry).2.1 1 42 (by omega)
    (fun j hj => by
      have hj0 : j = 0 := by omega
      rw [hj0]; rfl)
    rfl

/-- A fetch operation every attempt of which fails. -/
def alwaysFail : Nat → Except Unit Nat := fun _ => Except.error ()

/-- C8 counterexample: with 2 attempts that both fail, the code performs 2
sleeps, not 2 - 1 = 1: the source sleeps inside the `except` block after
every failed attempt, including the final one, before returning `None`. -/
theorem retry_sleep_count_cex :
    (retry 2 120 alwaysFail).2.2 = 2 ∧ (2 : Nat) ≠ 2 - 1 := by decide

/-- C8 amended: on a fully failing run of `n` attempts, `retry` sleeps for
the delay exactly once after every failed attempt, including the final one,
so it performs exactly `n` sleeps (not `n - 1`) before returning no result. -/
theorem retry_sleeps_after_every_failure {ε α : Type} (times : Nat) (delay_s : Int)
    (f : Nat → Except ε α) (h : ∀ i : Nat, i < times → failed (f i) = true) :
    (retry times delay_s f).2.2 = times := by
  have hall := retryGo_all_fail f times 0 (fun j hj => by simpa using h j hj)
  simp [retry, hall]

theorem retry_sleeps_after_every_failure_witness :
    (retry 2 120 alwaysFail).2.2 = 2 :=
  retry_sleeps_after_every_failure 2 120 alwaysFail (fun _ _ => rfl)

/-- C10: when the current time has already reached all three instants of the
window, the iteration issues no service-state command, performs no sleep,
and the loop proceeds to the next fetch at the same time. -/
theorem all_instants_passed_noop (now : Int) (w : TimeInfo)
    (h1 : w.sunrise ≤ now) (h2 : w.sunset ≤ now) (h3 : w.next_1am ≤ now) :
    commands (windowIteration now w).1 = [] ∧
    sleepTargets (windowIteration now w).1 = [] ∧
    (windowIteration now w).2 = now := by
  have hn1 : ¬ now < w.sunrise := not_lt.mpr h1
  have hn2 : ¬ now < w.sunset := not_lt.mpr h2
  have hn3 : ¬ now < w.next_1am := not_lt.mpr h3
  have hs : runSteps now w = ([], now) := by
    simp [runSteps, step, hn1, hn2, hn3]
  refine ⟨?_, ?_, ?_⟩
  · simp only [windowIteration, hs]
    split <;> simp [commands]
  · simp only [windowIteration, hs]
    split <;> simp [sleepTargets]
  · simp [windowIteration, hs]

theorem all_instants_passed_noop_witness :
    commands (windowIteration 100000 (TimeInfo.default 0)).1 = [] ∧
    sleepTargets (windowIteration 100000 (TimeInfo.default 0)).1 = [] ∧
    (windowIteration 100000 (TimeInfo.default 0)).2 = 100000 :=
  all_instants_passed_noop 100000 (TimeInfo.default 0) (by decide) (by decide) (by decide)

/-- A fetch of the time window every attempt of which fails. -/
def failingFetch : Nat → Except Unit TimeInfo := fun _ => Except.error ()

/-- C3: when all 5 fetch attempts of an iteration fail, the iteration
proceeds with the default window: retry yields no result, `TimeInfo.default`
is used, and the rest of the iteration is the checked steps over that
default window.  The iteration is a total function, so no fetch failure
terminates the process. -/
theorem fetch_failure_falls_back {ε : Type} (now today : Int)
    (attempts : Nat → Except ε TimeInfo)
    (h : ∀ i : Nat, i < 5 → failed (attempts i) = true) :
    (mainIteration now today attempts).usedDefault = true ∧
    (mainIteration now today attempts).window = TimeInfo.default today ∧
    (mainIteration now today attempts).events =
      (windowIteration now (TimeInfo.default today)).1 ∧
    (mainIteration now today attempts).endTime =
      (windowIteration now (TimeInfo.default today)).2 := by
  have hall := retryGo_all_fail attempts 5 0 (fun j hj => by simpa using h j hj)
  refine ⟨?_, ?_, ?_, ?_⟩ <;> simp [mainIteration, retry, hall]

theorem fetch_failure_falls_back_witness :
    (mainIteration 0 0 failingFetch).usedDefault = true ∧
    (mainIteration 0 0 failingFetch).window = TimeInfo.default 0 :=
  ⟨(fetch_failure_falls_back 0 0 failingFetch (fun _ _ => rfl)).1,
   (fetch_failure_falls_back 0 0 failingFetch (fun _ _ => rfl)).2.1⟩

/-- C4: `TimeInfo.default` is a total function of the current date whose
window is sunrise = 06:00 of today, sunset = 21:00 of today, and
next_1am = 01:00 of tomorrow, and it always satisfies
sunrise < sunset < next_1am. -/
theorem default_window_spec (today : Int) :
    localDate (TimeInfo.default today).sunrise = today ∧
    timeOfDay (TimeInfo.default today).sunrise = 6 * 3600 ∧
    localDate (TimeInfo.default today).sunset = today ∧
    timeOfDay (TimeInfo.default today).sunset = 21 * 3600 ∧
    localDate (TimeInfo.default today).next_1am = today + 1 ∧
    timeOfDay (TimeInfo.default today).next_1am = 1 * 3600 ∧
    (TimeInfo.default today).sunrise < (TimeInfo.default today).sunset ∧
    (TimeInfo.default today).sunset < (TimeInfo.default today).next_1am := by
  simp only [TimeInfo.default, localDate, timeOfDay, combine]
  omega

/-- C5: `get_from_web` discards the date component of the sunrise and sunset
timestamps decoded from the response and substitutes today's date, keeping
only the time of day; in particular, when the decoded sunrise falls on the
day before the request date, the constructed sunrise date is still the
request date, not the decoded date. -/
theorem fetch_substitutes_today (today off sr ss : Int) :
    localDate (TimeInfo.get_from_web today off sr ss).sunrise = today ∧
    timeOfDay (TimeInfo.get_from_web today off sr ss).sunrise =
      timeOfDay (localOfEpoch off sr) ∧
    localDate (TimeInfo.get_from_web today off sr ss).sunset = today ∧
    timeOfDay (TimeInfo.get_from_web today off sr ss).sunset =
      timeOfDay (localOfEpoch off ss) ∧
    (localDate (localOfEpoch off sr) = today - 1 →
      localDate (TimeInfo.get_from_web today off sr ss).sunrise = today ∧
      localDate (TimeInfo.get_from_web today off sr ss).sunrise ≠
        localDate (localOfEpoch off sr)) := by
  simp only [TimeInfo.get_from_web, localDate, timeOfDay, localOfEpoch, replaceDate, combine]
  omega

theorem fetch_substitutes_today_witness :
    localDate (TimeInfo.get_from_web 19844 0 1714453920 1714512720).sunrise = 19844 ∧
    localDate (TimeInfo.get_from_web 19844 0 1714453920 1714512720).sunrise ≠
      localDate (localOfEpoch 0 1714453920) :=
  (fetch_substitutes_today 19844 0 1714453920 1714512720).2.2.2.2 (by decide)

/-- C6: the ordering-invariant check only contributes a log event on
violation; the commands, the sleeps, and the end time of the iteration are
exactly those of the three guarded steps over the window as given, whether
or not the window is well ordered. -/
theorem ordering_check_log_only (now : Int) (w : TimeInfo) :
    (windowIteration now w).1 =
      (if w.sunrise < w.sunset ∧ w.sunset < w.next_1am then []
        else [Event.logOrderingError]) ++ (runSteps now w).1 ∧
    commands (windowIteration now w).1 = commands (runSteps now w).1 ∧
    sleepTargets (windowIteration now w).1 = sleepTargets (runSteps now w).1 ∧
    (windowIteration now w).2 = (runSteps now w).2 := by
  refine ⟨rfl, ?_, ?_, rfl⟩
  · simp only [windowIteration]
    split <;> simp [commands]
  · simp only [windowIteration]
    split <;> simp [sleepTargets]

/-- C7 counterexample: with the default window of day 0 (which satisfies the
ordering invariant) and the iteration starting at 23:00 — after sunset,
before the next 01:00 boundary — exactly one stop command is issued during
the iteration, not two. -/
theorem post_sunset_commands_cex :
    ((TimeInfo.default 0).sunrise < (TimeInfo.default 0).sunset ∧
      (TimeInfo.default 0).sunset < (TimeInfo.default 0).next_1am) ∧
    (TimeInfo.default 0).sunset < 23 * 3600 ∧
    (23 * 3600 : Int) < (TimeInfo.default 0).next_1am ∧
    commands (windowIteration (23 * 3600) (TimeInfo.default 0)).1 = [false] ∧
    commands (windowIteration (23 * 3600) (TimeInfo.default 0)).1 ≠ [false, false] := by
  decide

/-- C7 amended: for an iteration whose window satisfies the ordering
invariant and that starts after sunset but before the next 01:00 boundary
(as at 23:00), the sunrise and sunset steps are skipped, exactly one service
command is issued — a stop, from the next_boundary step — and the iteration
ends (so the next fetch happens) only once the boundary instant is reached. -/
theorem post_sunset_iteration (now : Int) (w : TimeInfo)
    (h1 : w.sunrise < w.sunset) (h2 : w.sunset < w.next_1am)
    (h3 : w.sunset ≤ now) (h4 : now < w.next_1am) :
    commands (windowIteration now w).1 = [false] ∧
    sleepTargets (windowIteration now w).1 = [w.next_1am] ∧
    (windowIteration now w).2 = w.next_1am := by
  have hn1 : ¬ now < w.sunrise := by omega
  have hn2 : ¬ now < w.sunset := not_lt.mpr h3
  have hs : runSteps now w =
      ([Event.command false, Event.sleepUntil w.next_1am], w.next_1am) := by
    simp [runSteps, step, hn1, hn2, h4]
  refine ⟨?_, ?_, ?_⟩ <;> simp [windowIteration, hs, h1, h2, commands, sleepTargets]

theorem post_sunset_iteration_witness :
    commands (windowIteration (23 * 3600) (TimeInfo.default 0)).1 = [false] ∧
    (windowIteration (23 * 3600) (TimeInfo.default 0)).2 = (TimeInfo.default 0).next_1am :=
  ⟨(post_sunset_iteration (23 * 3600) (TimeInfo.default 0)
      (by decide) (by decide) (by decide) (by decide)).1,
   (post_sunset_iteration (23 * 3600) (TimeInfo.default 0)
      (by decide) (by decide) (by decide) (by decide)).2.2⟩

/-- C9: the next_1am of a fetched window does not depend on the provider
response: two successful fetches at the same system time with arbitrary
responses build equal next_1am values, each equal to 01:00 local time of the
day after the fetch date. -/
theorem next_boundary_response_independent (today off sr1 ss1 sr2 ss2 : Int) :
    (TimeInfo.get_from_web today off sr1 ss1).next_1am =
      (TimeInfo.get_from_web today off sr2 ss2).next_1am ∧
    localDate (TimeInfo.get_from_web today off sr1 ss1).next_1am = today + 1 ∧
    timeOfDay (TimeInfo.get_from_web today off sr1 ss1).next_1am = 1 * 3600 := by
  refine ⟨rfl, ?_, ?_⟩ <;>
    simp only [TimeInfo.get_from_web, localDate, timeOfDay, combine] <;> omega

end Powersave
